import Mathlib

/-!
Shallow embedding of the dotfiles setup tool's task-orchestration core
(`src/tasks/SystemPackagesTask`, `src/tasks/SnapPackagesTask`,
`src/tasks/GitHubReposCloneTask`, and the orchestrator `main` /
`runAnimatedInstallation`).  Effectful pieces (file system, process
spawning, HTTP) are passed in as explicit parameters; string processing
is carried out on `List Char` / `String` exactly as the JS source does it.
-/

namespace Dotfiles

/-- JS `str.trim()` on a character list (ASCII whitespace, as produced by
`Char.isWhitespace`): drop leading and trailing whitespace. -/
def trimChars (cs : List Char) : List Char :=
  ((cs.dropWhile Char.isWhitespace).reverse.dropWhile Char.isWhitespace).reverse

/-- JS `str.trim()` on a `String`. -/
def trimStr (s : String) : String := String.mk (trimChars s.data)

/-- JS `content.split("\n")` at character level: splitting an empty string
yields one empty piece, a trailing newline yields a trailing empty piece. -/
def splitOnNl : List Char → List (List Char)
  | [] => [[]]
  | c :: rest =>
    if c = '\n' then [] :: splitOnNl rest
    else
      match splitOnNl rest with
      | [] => [[c]]
      | line :: others => (c :: line) :: others

/-- JS `content.split("\n")` producing `String` lines. -/
def splitLines (content : String) : List String :=
  (splitOnNl content.data).map String.mk

/-- JS `line.startsWith("#")`. -/
def startsWithHash : List Char → Bool
  | [] => false
  | c :: _ => c == '#'

/-- Parsing part of `SystemPackagesTask.check` (source lines 190–193): map `trim` over the lines, keep truthy (non-empty) lines
that do not start with `#`.  Note: no inline-comment stripping here. -/
def sysParseLines (lines : List String) : List String :=
  (lines.map trimStr).filter (fun line => !line.data.isEmpty && !startsWithHash line.data)

/-- The package list parsed by `SystemPackagesTask.check` from the file
content of `apps.list`. -/
def sysParsePackages (content : String) : List String :=
  sysParseLines (splitLines content)

/-- One requested snap app: `{ name, flags }` as built by
`SnapPackagesTask.getSnapRequests`. -/
structure SnapRequest where
  name : String
  flags : List String
deriving DecidableEq, Repr

/-- The characters of the flag token `"--classic"`. -/
def classicChars : List Char := "--classic".data

/-- Split a list at the first occurrence of the pattern `pat`:
`some (before, after)` when present, `none` otherwise.  `before ++ after`
is JS `s.replace(pat, "")` (first occurrence only), and `isSome` is JS
`s.includes(pat)`. -/
def splitFirst (pat : List Char) : List Char → Option (List Char × List Char)
  | [] => if pat.isEmpty then some ([], []) else none
  | c :: rest =>
    if pat.isPrefixOf (c :: rest) then some ([], (c :: rest).drop pat.length)
    else
      match splitFirst pat rest with
      | some (pre, post) => some (c :: pre, post)
      | none => none

/-- Handling of a single line by `SnapPackagesTask.getSnapRequests`
(source lines 104–123): trim; skip blank lines and lines starting with
`#`; strip an inline `#` comment; extract a `--classic` token as a flag
(JS `replace` removes the first occurrence only); keep the remainder as
the app name if non-empty. -/
def snapParseLine (line0 : String) : Option SnapRequest :=
  let cs := trimChars line0.data
  if cs.isEmpty || startsWithHash cs then none
  else
    let cs1 := if cs.contains '#' then trimChars (cs.takeWhile (fun c => !(c == '#'))) else cs
    match splitFirst classicChars cs1 with
    | some (pre, post) =>
      let nameChars := trimChars (pre ++ post)
      if nameChars.isEmpty then none else some ⟨String.mk nameChars, ["--classic"]⟩
    | none =>
      if cs1.isEmpty then none else some ⟨String.mk cs1, []⟩

/-- The requests parsed from an already-split list of lines (the loop of
source lines 104–123). -/
def snapLineRequests (lines : List String) : List SnapRequest :=
  lines.filterMap snapParseLine

/-- Model of `SnapPackagesTask.getSnapRequests` on the file content of
`snap-apps.list`. -/
def getSnapRequests (content : String) : List SnapRequest :=
  snapLineRequests (splitLines content)

/-- The value type returned by `check` (`src/core/interfaces.ts`):
`{ upToDate, toInstall, warnings? }`.  The optional `warnings` field is
modelled as a list that is empty when absent. -/
structure TaskCheckResult where
  upToDate : List String
  toInstall : List String
  warnings : List String
deriving DecidableEq, Repr

/-- The partition loop of `SystemPackagesTask.check` (source lines
199–205): each requested package is pushed onto `upToDate` when the
installed set contains it, onto `toInstall` otherwise, preserving the
request order. -/
def sysPartition : List String → (String → Bool) → TaskCheckResult
  | [], _ => ⟨[], [], []⟩
  | pkg :: rest, installed =>
    let r := sysPartition rest installed
    if installed pkg then ⟨pkg :: r.upToDate, r.toInstall, r.warnings⟩
    else ⟨r.upToDate, pkg :: r.toInstall, r.warnings⟩

/-- Model of `SystemPackagesTask.check` given the content of an existing
`apps.list` and the installed-package set queried from the package
manager (the missing-file and empty-list early returns produce an empty
plan and are not needed by the claims below). -/
def sysCheck (content : String) (installed : String → Bool) : TaskCheckResult :=
  sysPartition (sysParsePackages content) installed

/-- The private planning state of `SystemPackagesTask`: the `_toInstall`
field, `[]` at construction. -/
structure SystemPackagesState where
  toInstall : List String
deriving DecidableEq, Repr

/-- A freshly constructed `SystemPackagesTask` (`_toInstall = []`). -/
def SystemPackagesState.init : SystemPackagesState := ⟨[]⟩

/-- The state cached by `SystemPackagesTask.check` for `execute`
(source line 208: `this._toInstall = result.toInstall`). -/
def sysStateAfterCheck (content : String) (installed : String → Bool) :
    SystemPackagesState :=
  ⟨(sysCheck content installed).toInstall⟩

/-- The partition loop of `SnapPackagesTask.check` (source lines 48–55):
also records the pending requests (with flags) in `_toInstall`. -/
def snapPartition : List SnapRequest → (String → Bool) → TaskCheckResult × List SnapRequest
  | [], _ => (⟨[], [], []⟩, [])
  | req :: rest, installed =>
    let pr := snapPartition rest installed
    if installed req.name then (⟨req.name :: pr.1.upToDate, pr.1.toInstall, pr.1.warnings⟩, pr.2)
    else (⟨pr.1.upToDate, req.name :: pr.1.toInstall, pr.1.warnings⟩, req :: pr.2)

/-- The private planning state of `SnapPackagesTask`: `_toInstall` and
`_needsSnapd`. -/
structure SnapState where
  toInstall : List SnapRequest
  needsSnapd : Bool
deriving DecidableEq, Repr

/-- Model of `SnapPackagesTask.check` given the content of an existing
`snap-apps.list`, whether the `snap` tool is on the PATH, and the set of
snaps reported installed by `snap list`.  When `snap` is absent the
installed set is empty, `_needsSnapd` is flagged, and a warning is
emitted (source lines 22–57). -/
def snapCheck (content : String) (hasSnap : Bool) (installedSnaps : String → Bool) :
    TaskCheckResult × SnapState :=
  let requests := getSnapRequests content
  if requests.isEmpty then (⟨[], [], []⟩, ⟨[], false⟩)
  else
    let installedSet : String → Bool := if hasSnap then installedSnaps else fun _ => false
    let warns : List String :=
      if hasSnap then [] else ["Snapd is missing. It will be installed first."]
    let pr := snapPartition requests installedSet
    (⟨pr.1.upToDate, pr.1.toInstall, warns⟩, ⟨pr.2, !hasSnap⟩)

/-- Model of `SnapPackagesTask.applySelection` (source lines 13–20): keep only the
pending requests whose name is in the selected set; if nothing remains,
clear the `_needsSnapd` flag. -/
def SnapState.applySelection (st : SnapState) (selectedItems : String → Bool) : SnapState :=
  let kept := st.toInstall.filter (fun req => selectedItems req.name)
  ⟨kept, if kept.isEmpty then false else st.needsSnapd⟩

/-- Model of `SystemPackagesTask.updateRepositories` (source lines 271–294): the
single repository-metadata refresh command for the detected package
manager (none for an unrecognized manager). -/
def updateRepoCmd (pm : String) : List (List String) :=
  match pm with
  | "apt" => [["sudo", "apt", "update", "-y"]]
  | "dnf" => [["sudo", "dnf", "check-update"]]
  | "zypper" => [["sudo", "zypper", "check-update"]]
  | "pacman" => [["sudo", "pacman", "-Sy", "--noconfirm"]]
  | _ => []

/-- The install-command stem chosen by `SystemPackagesTask.installPackages`
(source lines 309–321). -/
def installCmdBase (pm : String) : List String :=
  match pm with
  | "apt" => ["sudo", "apt", "install", "-y"]
  | "dnf" => ["sudo", "dnf", "install", "-y"]
  | "zypper" => ["sudo", "zypper", "install", "-y"]
  | "pacman" => ["sudo", "pacman", "-S", "--noconfirm"]
  | _ => []

/-- Model of `SystemPackagesTask.installPackages` (source lines 296–333) as the
list of commands it hands to `execStream`, where `execOk cmd` is the
success flag `execStream` reports for `cmd`: first the single batch
command; if the batch reports failure, additionally one command per
package, in order, each result ignored. -/
def installPkgCmds (pm : String) (packages : List String) (execOk : List String → Bool) :
    List (List String) :=
  let fullCmd := installCmdBase pm ++ packages
  if execOk fullCmd then [fullCmd]
  else fullCmd :: packages.map (fun pkg => installCmdBase pm ++ [pkg])

/-- Model of `SystemPackagesTask.execute` (source lines 212–232): returns the
commands issued and the state after the call.  With an empty `_toInstall`
it logs and returns; otherwise it refreshes repositories once and runs
`installPackages`.  `execute` never writes `_toInstall`, so the state
comes back unchanged in both branches. -/
def sysExecute (st : SystemPackagesState) (pm : String) (execOk : List String → Bool) :
    List (List String) × SystemPackagesState :=
  if st.toInstall.isEmpty then ([], st)
  else (updateRepoCmd pm ++ installPkgCmds pm st.toInstall execOk, st)

/-- What the orchestrator's optional call `task.applySelection?.(sel)`
(part_001 line 199) does to `SystemPackagesTask`: the class declares no
`applySelection`, so the optional call is skipped and the state is
untouched. -/
def sysApplySelectionOrch (st : SystemPackagesState) (_selectedForTask : List String) :
    SystemPackagesState :=
  st

/-- Model of `SnapPackagesTask.installSnapd` (source lines 152–167): the snapd
install command per package manager; an unmatched manager issues
nothing. -/
def installSnapdCmd (pm : String) : List (List String) :=
  match pm with
  | "apt" => [["sudo", "apt", "install", "-y", "snapd"]]
  | "dnf" => [["sudo", "dnf", "install", "-y", "snapd"]]
  | "zypper" => [["sudo", "zypper", "install", "-y", "snapd"]]
  | "pacman" => [["sudo", "pacman", "-S", "--noconfirm", "snapd"]]
  | _ => []

/-- Model of `SnapPackagesTask.execute` (source lines 60–95) as the list of
commands issued: nothing when `_toInstall` is empty; otherwise snapd
installation (plus socket enablement when `systemctl` exists) when
`_needsSnapd`, then one `snap install` per pending request with its
recorded flags. -/
def snapExecute (st : SnapState) (pm : String) (hasSystemctl : Bool) : List (List String) :=
  if st.toInstall.isEmpty then []
  else
    (if st.needsSnapd then
      installSnapdCmd pm ++
        (if hasSystemctl then [["sudo", "systemctl", "enable", "--now", "snapd.socket"]] else [])
    else []) ++
    st.toInstall.map (fun req => ["sudo", "snap", "install", req.name] ++ req.flags)

/-- One GitHub repository record as fetched by `GitHubReposCloneTask`
(`GitHubReposCloneTask.ts` lines 7–10). -/
structure GitHubRepo where
  full_name : String
  clone_url : String
deriving DecidableEq, Repr

/-- JS `part.replace(/\/+$/g, "")`: strip trailing slashes. -/
def rstripSlash (s : String) : String :=
  String.mk ((s.data.reverse.dropWhile (fun c => c == '/')).reverse)

/-- JS `part.replace(/^\/+|\/+$/g, "")`: strip leading and trailing
slashes. -/
def stripSlashes (s : String) : String :=
  String.mk (((s.data.dropWhile (fun c => c == '/')).reverse.dropWhile (fun c => c == '/')).reverse)

/-- JS `parts.join("/")`. -/
def joinParts : List String → String
  | [] => ""
  | [p] => p
  | p :: rest => p ++ "/" ++ joinParts rest

/-- Model of `GitHubReposCloneTask.joinPath` (source lines 159–169) at the two-part
arity used by the task: strip trailing slashes from the first part,
leading and trailing slashes from the second, drop empty parts, join with
`/`. -/
def joinPath (a b : String) : String :=
  joinParts (([rstripSlash a, stripSlashes b]).filter (fun p => !p.data.isEmpty))

/-- Characters before the last `/`, or `none` when there is no `/`. -/
def dirnameAux : List Char → Option (List Char)
  | [] => none
  | c :: rest =>
    match dirnameAux rest with
    | some d => some (c :: d)
    | none => if c = '/' then some [] else none

/-- Model of `GitHubReposCloneTask.dirnamePath` (source lines 171–178): strip
trailing slashes, then return everything before the last `/`, or `.` when
the last `/` is absent or at index 0. -/
def dirnamePath (path : String) : String :=
  match dirnameAux (rstripSlash path).data with
  | none => "."
  | some [] => "."
  | some cs => String.mk cs

/-- The `git clone` invocation issued per repository (source lines
106–113), with the bearer token passed as an HTTP auth header. -/
def cloneCmd (auth url target : String) : List String :=
  ["git", "-c", "http.extraHeader=Authorization: Bearer " ++ auth, "clone", url, target]

/-- The per-repository loop of `GitHubReposCloneTask.execute` (source
lines 90–118): skip unselected repositories; skip (log only) a repository
whose target directory already holds a `.git` entry (`isAlreadyCloned`,
lines 155–157); otherwise create the parent directory and clone, logging
a failure when `execStream` reports the clone unsuccessful.  Parameters:
`sel` is membership in `_selectedRepoNames`, `fs` is `Bun.file(path)
.exists()`, and `ok repo` is the success flag of the clone invocation for
`repo`.  Returns the issued commands and the full names logged as clone
failures, in order. -/
def githubCloneLoop (auth : String) (sel : String → Bool) (base : String)
    (fs : String → Bool) (ok : GitHubRepo → Bool) :
    List GitHubRepo → List (List String) × List String
  | [] => ([], [])
  | repo :: rest =>
    let res := githubCloneLoop auth sel base fs ok rest
    if sel repo.full_name then
      let targetDir := joinPath base repo.full_name
      if fs (joinPath targetDir ".git") then res
      else
        let newCmds :=
          ["mkdir", "-p", dirnamePath targetDir] :: cloneCmd auth repo.clone_url targetDir :: res.1
        if ok repo then (newCmds, res.2) else (newCmds, repo.full_name :: res.2)
    else res

/-- Model of `GitHubReposCloneTask.execute` (source lines 79–118): warn-and-return
when no token or no fetched repository; otherwise `mkdir -p` the clone
base directory once and run the per-repository loop. -/
def githubExecute (auth : String) (repos : List GitHubRepo) (sel : String → Bool)
    (base : String) (fs : String → Bool) (ok : GitHubRepo → Bool) :
    List (List String) × List String :=
  if auth.data.isEmpty || repos.isEmpty then ([], [])
  else
    let res := githubCloneLoop auth sel base fs ok repos
    (["mkdir", "-p", base] :: res.1, res.2)

/-- The body of a page response: `none` models a non-array JSON body,
`some l` an array.  Responses are the 2xx case — a non-2xx response makes
`fetchAllRepos` throw (source lines 136–138) and is outside the paginated
path modelled here. -/
def pageList : Option (List GitHubRepo) → List GitHubRepo
  | none => []
  | some l => l

/-- The loop-break test of `fetchAllRepos` (source line 141):
`!Array.isArray(repos) || repos.length === 0`. -/
def isStopPage : Option (List GitHubRepo) → Bool
  | none => true
  | some l => l.isEmpty

/-- The `per_page` request parameter hard-coded in the request URL
(source line 127). -/
def perPageParam : Nat := 100

/-- Model of `GitHubReposCloneTask.fetchAllRepos` (source lines 121–153) with the
HTTP boundary as the function `pages` from page number to response body:
starting from page 1, request pages (each request recorded as its
`(page, per_page)` query pair), stop at the first empty or non-array
page, and concatenate the earlier pages in order.  `fuel` bounds the
number of iterations so the model stays total; `none` means the fuel ran
out before a stop page was seen. -/
def fetchAllReposAux (pages : Nat → Option (List GitHubRepo)) :
    Nat → Nat → Option (List (Nat × Nat) × List GitHubRepo)
  | 0, _ => none
  | fuel + 1, page =>
    let r := pages page
    if isStopPage r then some ([(page, perPageParam)], [])
    else
      match fetchAllReposAux pages fuel (page + 1) with
      | none => none
      | some (reqs, rest) => some ((page, perPageParam) :: reqs, pageList r ++ rest)

/-- The fetch entered at `page = 1` (source line 123). -/
def fetchAllRepos (pages : Nat → Option (List GitHubRepo)) (fuel : Nat) :
    Option (List (Nat × Nat) × List GitHubRepo) :=
  fetchAllReposAux pages fuel 1

/-- One entry of the list returned by `runAnimatedInstallation`
(`src/ui/types.ts` shape `{name, status, error?}`). -/
structure StepResult where
  name : String
  status : String
  error : Option String
deriving DecidableEq, Repr

/-- The result recorded for one step by the try/catch of
`runAnimatedInstallation` (part_001 lines 531–542). -/
def stepResult (step : String × Except String Unit) : StepResult :=
  match step.2 with
  | Except.ok _ => ⟨step.1, "completed", none⟩
  | Except.error e => ⟨step.1, "failed", some e⟩

/-- Model of `runAnimatedInstallation` (part_001 lines 468–561) with each step's
`run()` outcome given as an `Except` (`Except.error e` models a thrown
error with message `e`): the empty-step early return, then the sequential
loop pushing one result per step.  The spinner/renderer state is
presentation only and does not feed back into the results. -/
def runAnimatedInstallation (steps : List (String × Except String Unit)) : List StepResult :=
  if steps.isEmpty then []
  else
    steps.foldl
      (fun results step =>
        match step.2 with
        | Except.ok _ => results ++ [⟨step.1, "completed", none⟩]
        | Except.error e => results ++ [⟨step.1, "failed", some e⟩])
      []

/-- One selectable category pushed by the orchestrator's pre-check loop
(part_001 lines 158–162): `{key, title, items}` with both `key` and
`title` set to the task name. -/
structure SelectionCategory where
  key : String
  title : String
  items : List String
deriving DecidableEq, Repr

/-- The accumulator of the orchestrator's pre-check loop (part_001 lines
140–142): `hasPendingWork`, `selectableCategories`, `uiWarnings`. -/
structure PreCheckAcc where
  hasPendingWork : Bool
  selectableCategories : List SelectionCategory
  uiWarnings : List String
deriving DecidableEq, Repr

/-- One iteration of the orchestrator's pre-check loop (part_001 lines
144–184) for a task given as its name and its `check` outcome: a thrown
`check` is caught and only logged, leaving the aggregate untouched; a
returned report contributes a selectable category when `toInstall` is
non-empty and its name-tagged warnings when `warnings` is non-empty. -/
def preCheckStep (acc : PreCheckAcc) (t : String × Except String TaskCheckResult) : PreCheckAcc :=
  match t.2 with
  | Except.error _ => acc
  | Except.ok report =>
    let acc1 :=
      if report.toInstall.isEmpty then acc
      else
        { acc with
          hasPendingWork := true
          selectableCategories := acc.selectableCategories ++ [⟨t.1, t.1, report.toInstall⟩] }
    if report.warnings.isEmpty then acc1
    else
      { acc1 with
        uiWarnings := acc1.uiWarnings ++ report.warnings.map (fun w => "[" ++ t.1 ++ "] " ++ w) }

/-- The orchestrator's whole pre-check phase over the selected tasks in
selection order (part_001 lines 140–184). -/
def preCheck (tasks : List (String × Except String TaskCheckResult)) : PreCheckAcc :=
  tasks.foldl preCheckStep ⟨false, [], []⟩

/-- A concrete four-page response sequence with page sizes 100, 100, 37
and 0, used to instantiate the pagination theorem. -/
def c4Pages : Nat → Option (List GitHubRepo) := fun n =>
  if n = 1 ∨ n = 2 then some (List.replicate 100 ⟨"r", "u"⟩)
  else if n = 3 then some (List.replicate 37 ⟨"r", "u"⟩)
  else some []

/-! ## Theorems -/

/-- Blank lines and full-comment lines contribute nothing: the
`SystemPackagesTask.check` line filter drops them, and the
`SnapPackagesTask.getSnapRequests` loop skips them. -/
theorem sysParseLines_skip_blank_comment (l1 l2 : List String) (line : String)
    (h : ((trimChars line.data).isEmpty || startsWithHash (trimChars line.data)) = true) :
    sysParseLines (l1 ++ line :: l2) = sysParseLines (l1 ++ l2) := by
  have hc : (!(trimStr line).data.isEmpty && !startsWithHash (trimStr line).data) = false := by
    cases ho : (trimChars line.data).isEmpty <;> simp_all [trimStr]
  simp [sysParseLines, List.filter_append, hc]

/-- A line that trims to empty or to a `#` comment is rejected by
`snapParseLine`. -/
theorem snapParseLine_none_of_blank_comment (line : String)
    (h : ((trimChars line.data).isEmpty || startsWithHash (trimChars line.data)) = true) :
    snapParseLine line = none := by
  simp only [snapParseLine, h]
  rfl

/-- C1 counterexample: the claim asserts that both planning parsers
truncate an inline `#`, so that the line `git # editor` yields exactly
the item `git`; but `SystemPackagesTask.check`'s line filter performs no
inline-comment stripping and yields the item `git # editor`. -/
theorem c1_counterexample :
    sysParsePackages "git # editor" = ["git # editor"] ∧
    sysParsePackages "git # editor" ≠ ["git"] ∧
    getSnapRequests "git # editor" = [⟨"git", []⟩] :=
  ⟨by decide, by decide, by decide⟩

/-- Dropping while `p` holds past a pivot element failing `p`: the pivot
and everything after it survive, whatever is before it. -/
theorem dropWhile_append_pivot (p : Char → Bool) (x : Char) (hx : p x = false)
    (A B : List Char) : (A ++ x :: B).dropWhile p = A.dropWhile p ++ x :: B := by
  rw [List.dropWhile_append]
  by_cases h : (A.dropWhile p).isEmpty = true
  · rw [if_pos h]
    rw [List.isEmpty_iff] at h
    rw [h, List.nil_append, List.dropWhile_cons, hx]
    simp
  · rw [if_neg h]

/-- Taking while `p` holds stops exactly at a failing pivot when every
element before the pivot satisfies `p`. -/
theorem takeWhile_append_pivot (p : Char → Bool) (x : Char) (hx : p x = false)
    (A B : List Char) (hall : ∀ c ∈ A, p c = true) :
    (A ++ x :: B).takeWhile p = A := by
  rw [List.takeWhile_append_of_pos hall, List.takeWhile_cons, hx]
  simp

/-- The head of a `dropWhile` result fails the predicate. -/
theorem dropWhile_head_false (p : Char → Bool) :
    ∀ (l : List Char) (a : Char) (A2 : List Char), l.dropWhile p = a :: A2 → p a = false := by
  intro l
  induction l with
  | nil => intro a A2 h; exact absurd h (by simp)
  | cons x l ih =>
    intro a A2 h
    rw [List.dropWhile_cons] at h
    by_cases hx : p x = true
    · rw [if_pos hx] at h
      exact ih a A2 h
    · rw [if_neg hx] at h
      injection h with h1 h2
      subst h1
      exact Bool.eq_false_iff.mpr hx

/-- `trimChars` around a non-whitespace pivot character: the trim removes
whitespace before the pivot on the left and after the pivot on the right,
and the pivot itself always survives. -/
theorem trimChars_decomp (x : Char) (hx : Char.isWhitespace x = false)
    (pre post : List Char) :
    trimChars (pre ++ x :: post) =
      pre.dropWhile Char.isWhitespace ++
        x :: (post.reverse.dropWhile Char.isWhitespace).reverse := by
  simp only [trimChars, dropWhile_append_pivot Char.isWhitespace x hx,
    List.reverse_append, List.reverse_cons, List.append_assoc, List.singleton_append,
    List.reverse_reverse]

/-- Elements of `trimChars l` come from `l`. -/
theorem trimChars_subset (l : List Char) (c : Char) (hc : c ∈ trimChars l) : c ∈ l := by
  rw [trimChars, List.mem_reverse] at hc
  have h1 := (List.dropWhile_sublist _).subset hc
  rw [List.mem_reverse] at h1
  exact (List.dropWhile_sublist _).subset h1

/-- Inline-`#` truncation in `snapParseLine`: for every line whose text
before its first `#` is `pre`, parsing the line is identical to parsing
`pre` alone — the `#` and everything after it never reach the parsed
request. -/
theorem snapParseLine_inline_hash (pre post : List Char) (h : '#' ∉ pre) :
    snapParseLine (String.mk (pre ++ '#' :: post)) = snapParseLine (String.mk pre) := by
  have hdec := trimChars_decomp '#' (by decide) pre post
  cases hA : pre.dropWhile Char.isWhitespace with
  | nil =>
    have hR : trimChars pre = [] := by
      simp [trimChars, hA]
    have hL : trimChars (pre ++ '#' :: post) =
        '#' :: (post.reverse.dropWhile Char.isWhitespace).reverse := by
      rw [hdec, hA, List.nil_append]
    simp [snapParseLine, hL, hR, startsWithHash]
  | cons a A2 =>
    have haw : Char.isWhitespace a = false := dropWhile_head_false _ pre a A2 hA
    have hsub : ∀ c ∈ a :: A2, c ∈ pre := fun c hc =>
      (List.dropWhile_sublist _).subset (hA ▸ hc)
    have ha : (a == '#') = false := by
      rw [beq_eq_false_iff_ne]
      intro heq
      exact h (heq ▸ hsub a (List.mem_cons_self a A2))
    have hL : trimChars (pre ++ '#' :: post) =
        a :: (A2 ++ '#' :: (post.reverse.dropWhile Char.isWhitespace).reverse) := by
      rw [hdec, hA, List.cons_append]
    have hCR : trimChars pre = trimChars (a :: A2) := by
      simp only [trimChars, hA,
        List.dropWhile_cons_of_neg (show ¬Char.isWhitespace a = true by simp [haw])]
    have hC : trimChars (a :: A2) =
        a :: (A2.reverse.dropWhile Char.isWhitespace).reverse := by
      have h0 := trimChars_decomp a haw [] A2
      simpa using h0
    have htake : (a :: (A2 ++ '#' ::
          (post.reverse.dropWhile Char.isWhitespace).reverse)).takeWhile
        (fun c => !(c == '#')) = a :: A2 := by
      have hall : ∀ c ∈ a :: A2, (!(c == '#')) = true := by
        intro c hc
        have hcne : c ≠ '#' := fun heq => h (heq ▸ hsub c hc)
        simp [hcne]
      have h1 := takeWhile_append_pivot (fun c => !(c == '#')) '#' (by simp)
        (a :: A2) ((post.reverse.dropWhile Char.isWhitespace).reverse) hall
      simpa using h1
    have hnotinC : '#' ∉ a :: (A2.reverse.dropWhile Char.isWhitespace).reverse := by
      intro hmem
      rcases List.mem_cons.mp hmem with heq | hmem2
      · exact absurd ha (by simp [heq.symm])
      · rw [List.mem_reverse] at hmem2
        have h3 := (List.dropWhile_sublist _).subset hmem2
        rw [List.mem_reverse] at h3
        exact h (hsub '#' (List.mem_cons_of_mem a h3))
    have hcontL : (a :: (A2 ++ '#' ::
          (post.reverse.dropWhile Char.isWhitespace).reverse)).contains '#' = true := by
      simp
    have hcontR : (a :: (A2.reverse.dropWhile Char.isWhitespace).reverse).contains '#'
        = false := by
      simp only [List.contains, List.elem_eq_mem, decide_eq_false_iff_not]
      exact hnotinC
    simp only [snapParseLine, hL, hCR, hC, List.isEmpty_cons, startsWithHash, ha,
      Bool.or_self, Bool.false_eq_true, if_false, hcontL, if_true, htake, hcontR]

/-- Inline-`#` truncation lifted to the request list of the whole parse
loop: a line with an inline comment contributes to the request list
exactly what the text before the `#` contributes. -/
theorem snapLineRequests_inline_hash (l1 l2 : List String) (pre post : List Char)
    (h : '#' ∉ pre) :
    snapLineRequests (l1 ++ String.mk (pre ++ '#' :: post) :: l2) =
      snapLineRequests (l1 ++ String.mk pre :: l2) := by
  simp only [snapLineRequests, List.filterMap_append, List.filterMap_cons,
    snapParseLine_inline_hash pre post h]

/-- A comment-free line without a `--classic` token parses to exactly its
trimmed text as the item name with no flags. -/
theorem snapParseLine_plain (pre : List Char) (h : '#' ∉ pre)
    (hne : (trimChars pre).isEmpty = false)
    (hsh : startsWithHash (trimChars pre) = false)
    (hcl : splitFirst classicChars (trimChars pre) = none) :
    snapParseLine (String.mk pre) = some ⟨String.mk (trimChars pre), []⟩ := by
  have hmem : '#' ∉ trimChars pre := fun hm => h (trimChars_subset pre '#' hm)
  have hne2 : trimChars pre ≠ [] := by
    intro hnil
    rw [hnil] at hne
    simp at hne
  simp [snapParseLine, hne2, hsh, hmem, hcl]

/-- A kept line (non-blank, not a `#` comment) contributes its whole
trimmed text — inline comment included — as one item of the
`SystemPackagesTask.check` parse. -/
theorem sysParseLines_keeps_line (l1 l2 : List String) (line : String)
    (h : (!(trimChars line.data).isEmpty && !startsWithHash (trimChars line.data)) = true) :
    sysParseLines (l1 ++ line :: l2) = sysParseLines l1 ++ trimStr line :: sysParseLines l2 := by
  simp only [sysParseLines, List.map_append, List.map_cons, List.filter_append,
    List.filter_cons, trimStr]
  simp [h]

/-- C1 (amended): both parsers exclude blank lines and lines whose first
non-whitespace character is `#`.  Inline `#` truncation holds only for
`SnapPackagesTask.getSnapRequests`: for every line of the form
`pre ++ "#" ++ post` with no `#` in `pre`, the parse equals the parse of
`pre` alone (also at request-list level), and when the trimmed `pre`
carries no `--classic` token the parsed item is exactly `pre` trimmed —
so `git # editor` yields the item `git`.  `SystemPackagesTask.check`
performs no inline-comment stripping: every kept line contributes its
whole trimmed text as the item, so `git # editor` yields the item
`git # editor` there. -/
theorem c1_parse_amended :
    (∀ (l1 l2 : List String) (line : String),
      ((trimChars line.data).isEmpty || startsWithHash (trimChars line.data)) = true →
      sysParseLines (l1 ++ line :: l2) = sysParseLines (l1 ++ l2) ∧
      snapLineRequests (l1 ++ line :: l2) = snapLineRequests (l1 ++ l2)) ∧
    (∀ (pre post : List Char) (l1 l2 : List String), '#' ∉ pre →
      snapParseLine (String.mk (pre ++ '#' :: post)) = snapParseLine (String.mk pre) ∧
      snapLineRequests (l1 ++ String.mk (pre ++ '#' :: post) :: l2) =
        snapLineRequests (l1 ++ String.mk pre :: l2)) ∧
    (∀ pre : List Char, '#' ∉ pre →
      (trimChars pre).isEmpty = false →
      startsWithHash (trimChars pre) = false →
      splitFirst classicChars (trimChars pre) = none →
      snapParseLine (String.mk pre) = some ⟨String.mk (trimChars pre), []⟩) ∧
    (∀ (l1 l2 : List String) (line : String),
      (!(trimChars line.data).isEmpty && !startsWithHash (trimChars line.data)) = true →
      sysParseLines (l1 ++ line :: l2) =
        sysParseLines l1 ++ trimStr line :: sysParseLines l2) ∧
    getSnapRequests "git # editor" = [⟨"git", []⟩] ∧
    sysParsePackages "git # editor" = ["git # editor"] := by
  refine ⟨fun l1 l2 line h => ⟨sysParseLines_skip_blank_comment l1 l2 line h, ?_⟩,
    fun pre post l1 l2 h => ⟨snapParseLine_inline_hash pre post h,
      snapLineRequests_inline_hash l1 l2 pre post h⟩,
    fun pre h hne hsh hcl => snapParseLine_plain pre h hne hsh hcl,
    fun l1 l2 line h => sysParseLines_keeps_line l1 l2 line h,
    by decide, by decide⟩
  simp [snapLineRequests, List.filterMap_append, snapParseLine_none_of_blank_comment line h]

/-- C1 witness: the amended statement instantiated at the line
`git # editor` (as `"git " ++ "#" ++ " editor"`), at the comment line
`"  # comment"`, and at the system-parse side keeping the full line. -/
theorem c1_witness :
    (('#' ∉ ("git " : String).data) ∧
      (trimChars ("git " : String).data).isEmpty = false ∧
      startsWithHash (trimChars ("git " : String).data) = false ∧
      splitFirst classicChars (trimChars ("git " : String).data) = none ∧
      ((trimChars ("  # comment" : String).data).isEmpty ||
        startsWithHash (trimChars ("  # comment" : String).data)) = true ∧
      (!(trimChars ("git # editor" : String).data).isEmpty &&
        !startsWithHash (trimChars ("git # editor" : String).data)) = true) ∧
    snapParseLine (String.mk (("git " : String).data ++ '#' :: (" editor" : String).data)) =
      snapParseLine (String.mk ("git " : String).data) ∧
    snapParseLine (String.mk ("git " : String).data) =
      some ⟨String.mk (trimChars ("git " : String).data), []⟩ ∧
    sysParseLines (["alpha"] ++ "  # comment" :: ["beta"]) =
      sysParseLines (["alpha"] ++ ["beta"]) ∧
    sysParseLines (["alpha"] ++ "git # editor" :: ["beta"]) =
      sysParseLines ["alpha"] ++ trimStr "git # editor" :: sysParseLines ["beta"] :=
  ⟨⟨by decide, by decide, by decide, by decide, by decide, by decide⟩,
    (c1_parse_amended.2.1 ("git " : String).data (" editor" : String).data [] []
      (by decide)).1,
    c1_parse_amended.2.2.1 ("git " : String).data (by decide) (by decide) (by decide)
      (by decide),
    (c1_parse_amended.1 ["alpha"] ["beta"] "  # comment" (by decide)).1,
    c1_parse_amended.2.2.2.1 ["alpha"] ["beta"] "git # editor" (by decide)⟩

/-- Membership in the `upToDate` side of the system-package partition. -/
theorem mem_sysPartition_upToDate (pkgs : List String) (inst : String → Bool) (x : String) :
    x ∈ (sysPartition pkgs inst).upToDate ↔ x ∈ pkgs ∧ inst x = true := by
  induction pkgs with
  | nil => simp [sysPartition]
  | cons pkg rest ih =>
    cases h : inst pkg <;>
      simp only [sysPartition, h, if_true, if_false, Bool.false_eq_true, List.mem_cons, ih] <;>
      constructor
    · rintro ⟨hx, hi⟩
      exact ⟨Or.inr hx, hi⟩
    · rintro ⟨rfl | hx, hi⟩
      · rw [h] at hi
        exact absurd hi (by simp)
      · exact ⟨hx, hi⟩
    · rintro (rfl | ⟨hx, hi⟩)
      · exact ⟨Or.inl rfl, h⟩
      · exact ⟨Or.inr hx, hi⟩
    · rintro ⟨rfl | hx, hi⟩
      · exact Or.inl rfl
      · exact Or.inr ⟨hx, hi⟩

/-- Membership in the `toInstall` side of the system-package partition. -/
theorem mem_sysPartition_toInstall (pkgs : List String) (inst : String → Bool) (x : String) :
    x ∈ (sysPartition pkgs inst).toInstall ↔ x ∈ pkgs ∧ inst x = false := by
  induction pkgs with
  | nil => simp [sysPartition]
  | cons pkg rest ih =>
    cases h : inst pkg <;>
      simp only [sysPartition, h, if_true, if_false, Bool.false_eq_true, List.mem_cons, ih] <;>
      constructor
    · rintro (rfl | ⟨hx, hi⟩)
      · exact ⟨Or.inl rfl, h⟩
      · exact ⟨Or.inr hx, hi⟩
    · rintro ⟨rfl | hx, hi⟩
      · exact Or.inl rfl
      · exact Or.inr ⟨hx, hi⟩
    · rintro ⟨hx, hi⟩
      exact ⟨Or.inr hx, hi⟩
    · rintro ⟨rfl | hx, hi⟩
      · rw [h] at hi
        exact absurd hi (by simp)
      · exact ⟨hx, hi⟩

/-- Membership in the `upToDate` side of the snap partition. -/
theorem mem_snapPartition_upToDate (reqs : List SnapRequest) (inst : String → Bool) (x : String) :
    x ∈ (snapPartition reqs inst).1.upToDate ↔
      x ∈ reqs.map SnapRequest.name ∧ inst x = true := by
  induction reqs with
  | nil => simp [snapPartition]
  | cons req rest ih =>
    cases h : inst req.name <;>
      simp only [snapPartition, h, if_true, if_false, Bool.false_eq_true, List.map_cons,
        List.mem_cons, ih] <;>
      constructor
    · rintro ⟨hx, hi⟩
      exact ⟨Or.inr hx, hi⟩
    · rintro ⟨rfl | hx, hi⟩
      · rw [h] at hi
        exact absurd hi (by simp)
      · exact ⟨hx, hi⟩
    · rintro (rfl | ⟨hx, hi⟩)
      · exact ⟨Or.inl rfl, h⟩
      · exact ⟨Or.inr hx, hi⟩
    · rintro ⟨rfl | hx, hi⟩
      · exact Or.inl rfl
      · exact Or.inr ⟨hx, hi⟩

/-- Membership in the `toInstall` side of the snap partition. -/
theorem mem_snapPartition_toInstall (reqs : List SnapRequest) (inst : String → Bool) (x : String) :
    x ∈ (snapPartition reqs inst).1.toInstall ↔
      x ∈ reqs.map SnapRequest.name ∧ inst x = false := by
  induction reqs with
  | nil => simp [snapPartition]
  | cons req rest ih =>
    cases h : inst req.name <;>
      simp only [snapPartition, h, if_true, if_false, Bool.false_eq_true, List.map_cons,
        List.mem_cons, ih] <;>
      constructor
    · rintro (rfl | ⟨hx, hi⟩)
      · exact ⟨Or.inl rfl, h⟩
      · exact ⟨Or.inr hx, hi⟩
    · rintro ⟨rfl | hx, hi⟩
      · exact Or.inl rfl
      · exact Or.inr ⟨hx, hi⟩
    · rintro ⟨hx, hi⟩
      exact ⟨Or.inr hx, hi⟩
    · rintro ⟨rfl | hx, hi⟩
      · rw [h] at hi
        exact absurd hi (by simp)
      · exact ⟨hx, hi⟩

/-- C2: for both `SystemPackagesTask.check` and `SnapPackagesTask.check`,
an item name is in `upToDate` or `toInstall` exactly when it is a
requested name, and no name is in both sides. -/
theorem c2_check_partitions :
    (∀ (content : String) (installed : String → Bool),
      (∀ x, (x ∈ (sysCheck content installed).upToDate ∨
             x ∈ (sysCheck content installed).toInstall) ↔
            x ∈ sysParsePackages content) ∧
      (∀ x, x ∈ (sysCheck content installed).upToDate →
            x ∈ (sysCheck content installed).toInstall → False)) ∧
    (∀ (content : String) (hasSnap : Bool) (installedSnaps : String → Bool),
      (∀ x, (x ∈ (snapCheck content hasSnap installedSnaps).1.upToDate ∨
             x ∈ (snapCheck content hasSnap installedSnaps).1.toInstall) ↔
            x ∈ (getSnapRequests content).map SnapRequest.name) ∧
      (∀ x, x ∈ (snapCheck content hasSnap installedSnaps).1.upToDate →
            x ∈ (snapCheck content hasSnap installedSnaps).1.toInstall → False)) := by
  constructor
  · intro content installed
    constructor
    · intro x
      rw [sysCheck, mem_sysPartition_upToDate, mem_sysPartition_toInstall]
      constructor
      · rintro (⟨hx, _⟩ | ⟨hx, _⟩) <;> exact hx
      · intro hx
        cases h : installed x
        · exact Or.inr ⟨hx, rfl⟩
        · exact Or.inl ⟨hx, rfl⟩
    · intro x hu ht
      rw [sysCheck, mem_sysPartition_upToDate] at hu
      rw [sysCheck, mem_sysPartition_toInstall] at ht
      rw [hu.2] at ht
      exact absurd ht.2 (by simp)
  · intro content hasSnap installedSnaps
    by_cases hreq : (getSnapRequests content).isEmpty
    · rw [List.isEmpty_iff] at hreq
      constructor
      · intro x
        simp [snapCheck, hreq]
      · intro x hu
        simp [snapCheck, hreq] at hu
    · constructor
      · intro x
        simp only [snapCheck, hreq, if_false, Bool.false_eq_true,
          mem_snapPartition_upToDate, mem_snapPartition_toInstall]
        constructor
        · rintro (⟨hx, _⟩ | ⟨hx, _⟩) <;> exact hx
        · intro hx
          cases h : (if hasSnap then installedSnaps else fun _ => false) x
          · exact Or.inr ⟨hx, rfl⟩
          · exact Or.inl ⟨hx, rfl⟩
      · intro x hu ht
        simp only [snapCheck, hreq, if_false, Bool.false_eq_true,
          mem_snapPartition_upToDate] at hu
        simp only [snapCheck, hreq, if_false, Bool.false_eq_true,
          mem_snapPartition_toInstall] at ht
        rw [hu.2] at ht
        exact absurd ht.2 (by simp)

/-- C2 witness: the partition facts evaluated on the list `git`, `vim`
with only `vim` installed. -/
theorem c2_witness :
    ("git" ∈ (sysCheck "git\nvim" (fun s => s == "vim")).upToDate ∨
      "git" ∈ (sysCheck "git\nvim" (fun s => s == "vim")).toInstall) ∧
    ("b" ∈ (snapCheck "a\nb" true (fun s => s == "a")).1.upToDate ∨
      "b" ∈ (snapCheck "a\nb" true (fun s => s == "a")).1.toInstall) :=
  ⟨((c2_check_partitions.1 "git\nvim" (fun s => s == "vim")).1 "git").mpr (by decide),
    ((c2_check_partitions.2 "a\nb" true (fun s => s == "a")).1 "b").mpr (by decide)⟩

/-- C3: with a non-empty pending list, when the batch install invocation
reports failure, `SystemPackagesTask.execute` issues the repository
refresh, the batch command, and then exactly one install invocation per
pending package in the original order; the right-hand side does not
depend on the success flags of the individual invocations, so an
individual failure never suppresses the remaining invocations. -/
theorem c3_batch_fallback (st : SystemPackagesState) (pm : String)
    (execOk : List String → Bool) (hne : st.toInstall ≠ [])
    (hbatch : execOk (installCmdBase pm ++ st.toInstall) = false) :
    (sysExecute st pm execOk).1 =
      updateRepoCmd pm ++
        ((installCmdBase pm ++ st.toInstall) ::
          st.toInstall.map (fun pkg => installCmdBase pm ++ [pkg])) := by
  have hne2 : st.toInstall.isEmpty = false := by
    cases h : st.toInstall with
    | nil => exact absurd h hne
    | cons a l => rfl
  simp [sysExecute, hne2, installPkgCmds, hbatch]

/-- C3 witness: two pending packages, every `execStream` reporting
failure. -/
theorem c3_witness :
    ((⟨["a", "b"]⟩ : SystemPackagesState).toInstall ≠ [] ∧
      ((fun _ => false) : List String → Bool) (installCmdBase "apt" ++ ["a", "b"]) = false) ∧
    (sysExecute ⟨["a", "b"]⟩ "apt" (fun _ => false)).1 =
      [["sudo", "apt", "update", "-y"],
        ["sudo", "apt", "install", "-y", "a", "b"],
        ["sudo", "apt", "install", "-y", "a"],
        ["sudo", "apt", "install", "-y", "b"]] :=
  ⟨⟨by decide, rfl⟩, by
    have h := c3_batch_fallback ⟨["a", "b"]⟩ "apt" (fun _ => false) (by decide) rfl
    rw [h]
    decide⟩

/-- C6 counterexample: after `check` plans `git` and a first `execute`
installs it, a second `execute` without an intervening `check` is not a
no-op — `_toInstall` is never cleared, so the same update and install
invocations are issued again. -/
theorem c6_counterexample :
    (sysExecute (sysExecute (sysStateAfterCheck "git" (fun _ => false)) "apt" (fun _ => true)).2
        "apt" (fun _ => true)).1 =
      [["sudo", "apt", "update", "-y"], ["sudo", "apt", "install", "-y", "git"]] ∧
    (sysExecute (sysExecute (sysStateAfterCheck "git" (fun _ => false)) "apt" (fun _ => true)).2
        "apt" (fun _ => true)).1 ≠ [] :=
  ⟨by decide, by decide⟩

/-- C6 (amended): before any `check`, `execute` issues no invocation and
returns without error; but `execute` leaves `_toInstall` untouched, so a
second `execute` without an intervening `check` or `applySelection`
issues exactly the same invocations as the first run instead of being a
no-op. -/
theorem c6_execute_replay_amended :
    ∀ (pm : String) (execOk : List String → Bool),
      (sysExecute SystemPackagesState.init pm execOk).1 = [] ∧
      ∀ st : SystemPackagesState,
        (sysExecute st pm execOk).2 = st ∧
        (sysExecute (sysExecute st pm execOk).2 pm execOk).1 = (sysExecute st pm execOk).1 := by
  intro pm execOk
  refine ⟨rfl, fun st => ?_⟩
  have h2 : (sysExecute st pm execOk).2 = st := by
    by_cases h : st.toInstall.isEmpty = true <;> simp [sysExecute, h]
  exact ⟨h2, by rw [h2]⟩

/-- C10: `SystemPackagesTask` has no `applySelection`, so the
orchestrator's optional call leaves its state unchanged for any two
item-level selections, and `execute` issues exactly the invocations for
the packages the last `check` found missing, independent of the
selection input. -/
theorem c10_sys_selection_independent :
    ∀ (content : String) (installed : String → Bool) (sel1 sel2 : List String)
      (pm : String) (execOk : List String → Bool),
      sysApplySelectionOrch (sysStateAfterCheck content installed) sel1 =
        sysApplySelectionOrch (sysStateAfterCheck content installed) sel2 ∧
      (sysExecute (sysApplySelectionOrch (sysStateAfterCheck content installed) sel1)
          pm execOk).1 =
        (sysExecute (sysStateAfterCheck content installed) pm execOk).1 ∧
      (sysExecute (sysStateAfterCheck content installed) pm execOk).1 =
        (if (sysCheck content installed).toInstall.isEmpty then []
          else updateRepoCmd pm ++ installPkgCmds pm (sysCheck content installed).toInstall execOk) := by
  intro content installed sel1 sel2 pm execOk
  refine ⟨rfl, rfl, ?_⟩
  by_cases h : (sysCheck content installed).toInstall.isEmpty = true <;>
    simp [sysExecute, sysStateAfterCheck, h]

/-- The fetch loop from an arbitrary start page: when the `k`-th page
after `start` is the first stop page, the loop requests pages
`start … start+k` (each with `per_page = 100`) and concatenates the
bodies of the pages before the stop page. -/
theorem fetchAux_spec (pages : Nat → Option (List GitHubRepo)) :
    ∀ (k start fuel : Nat),
      isStopPage (pages (start + k)) = true →
      (∀ j, j < k → isStopPage (pages (start + j)) = false) →
      k < fuel →
      fetchAllReposAux pages fuel start =
        some ((List.range' start (k + 1)).map (fun p => (p, perPageParam)),
          ((List.range' start k).map (fun i => pageList (pages i))).flatten) := by
  intro k
  induction k with
  | zero =>
    intro start fuel hstop hgo hfuel
    obtain ⟨f, rfl⟩ : ∃ f, fuel = f + 1 := ⟨fuel - 1, by omega⟩
    rw [Nat.add_zero] at hstop
    simp [fetchAllReposAux, hstop, List.range']
  | succ k ih =>
    intro start fuel hstop hgo hfuel
    obtain ⟨f, rfl⟩ : ∃ f, fuel = f + 1 := ⟨fuel - 1, by omega⟩
    have h0 : isStopPage (pages start) = false := by
      simpa using hgo 0 (Nat.succ_pos k)
    have hrec := ih (start + 1) f
      (by rw [show start + 1 + k = start + (k + 1) from by omega]; exact hstop)
      (fun j hj => by
        rw [show start + 1 + j = start + (j + 1) from by omega]
        exact hgo (j + 1) (by omega))
      (by omega)
    simp only [fetchAllReposAux, h0, Bool.false_eq_true, if_false, hrec]
    simp [List.range'_succ]

/-- C4: starting from page 1 with `per_page = 100`, `fetchAllRepos`
requests consecutive pages, stops at the first empty or non-array page
`N`, and returns the concatenation of pages `1 … N-1` in order. -/
theorem c4_fetch_pagination (pages : Nat → Option (List GitHubRepo)) (N fuel : Nat)
    (hN : 1 ≤ N) (hstop : isStopPage (pages N) = true)
    (hgo : ∀ i, 1 ≤ i → i < N → isStopPage (pages i) = false)
    (hfuel : N ≤ fuel) :
    fetchAllRepos pages fuel =
      some ((List.range' 1 N).map (fun p => (p, perPageParam)),
        ((List.range' 1 (N - 1)).map (fun i => pageList (pages i))).flatten) := by
  obtain ⟨k, rfl⟩ : ∃ k, N = k + 1 := ⟨N - 1, by omega⟩
  have h := fetchAux_spec pages k 1 fuel
    (by rw [show 1 + k = k + 1 from by omega]; exact hstop)
    (fun j hj => hgo (1 + j) (by omega) (by omega))
    (by omega)
  rw [fetchAllRepos, h]
  simp

set_option maxRecDepth 4000 in
/-- C4 witness: pages of sizes 100, 100, 37, 0 produce requests for pages
1–4 at `per_page = 100` and exactly 237 repositories. -/
theorem c4_witness :
    Option.map (fun pr => (pr.1, pr.2.length)) (fetchAllRepos c4Pages 4) =
      some ([(1, 100), (2, 100), (3, 100), (4, 100)], 237) := by
  have h := c4_fetch_pagination c4Pages 4 4 (by omega) (by decide)
    (by intro i h1 h2; interval_cases i <;> decide) (by omega)
  rw [h]
  decide

/-- C5: a repository whose target directory (clone root joined with its
full name) already holds a `.git` entry contributes no invocation and no
failure to `GitHubReposCloneTask.execute`: the loop's result over any
surrounding repositories equals the result with that repository removed,
so the remaining repositories are processed unchanged. -/
theorem c5_skip_already_cloned (auth base : String) (sel fsE : String → Bool)
    (ok : GitHubRepo → Bool) (l1 l2 : List GitHubRepo) (r : GitHubRepo)
    (hgit : fsE (joinPath (joinPath base r.full_name) ".git") = true) :
    githubCloneLoop auth sel base fsE ok (l1 ++ r :: l2) =
      githubCloneLoop auth sel base fsE ok (l1 ++ l2) := by
  induction l1 with
  | nil =>
    simp only [List.nil_append, githubCloneLoop]
    cases hsel : sel r.full_name
    · simp
    · simp [hgit]
  | cons a l1 ih =>
    simp only [List.cons_append, githubCloneLoop, List.append_eq, ih]

/-- C5 witness: the already-cloned repository `o/r` between two other
repositories is skipped with no clone invocation and no failure entry. -/
theorem c5_witness :
    ((fun s => s == "base/o/r/.git") (joinPath (joinPath "base" "o/r") ".git") = true) ∧
    githubCloneLoop "tok" (fun _ => true) "base" (fun s => s == "base/o/r/.git")
        (fun _ => true) ([⟨"a/b", "u1"⟩] ++ ⟨"o/r", "u2"⟩ :: [⟨"c/d", "u3"⟩]) =
      githubCloneLoop "tok" (fun _ => true) "base" (fun s => s == "base/o/r/.git")
        (fun _ => true) ([⟨"a/b", "u1"⟩] ++ [⟨"c/d", "u3"⟩]) :=
  ⟨by decide,
    c5_skip_already_cloned "tok" "base" (fun _ => true) (fun s => s == "base/o/r/.git")
      (fun _ => true) [⟨"a/b", "u1"⟩] [⟨"c/d", "u3"⟩] ⟨"o/r", "u2"⟩ (by decide)⟩

/-- The clone loop applies exactly the selected repositories: filtering
on the selected set first and running the loop with every repository
selected yields the same commands and failures. -/
theorem githubCloneLoop_filter (auth base : String) (sel fsE : String → Bool)
    (ok : GitHubRepo → Bool) (repos : List GitHubRepo) :
    githubCloneLoop auth sel base fsE ok repos =
      githubCloneLoop auth (fun _ => true) base fsE ok
        (repos.filter (fun r => sel r.full_name)) := by
  induction repos with
  | nil => rfl
  | cons repo rest ih =>
    cases hsel : sel repo.full_name
    · simpa [githubCloneLoop, List.filter_cons, hsel] using ih
    · simp only [githubCloneLoop, List.filter_cons, hsel, if_true, ih]

/-- C7: after `check` and `applySelection`, the working set `execute`
applies is the intersection of the planned items with the selected set —
for `SnapPackagesTask` the retained `_toInstall` entries, for
`GitHubReposCloneTask` the planned repositories whose full name is
selected — and an empty intersection makes `execute` a no-op that issues
nothing (for `SnapPackagesTask`, in particular, no snapd install). -/
theorem c7_selection_intersection :
    (∀ (content : String) (hasSnap : Bool) (installedSnaps selectedItems : String → Bool)
        (pm : String) (hasSystemctl : Bool),
      (∀ r, r ∈ ((snapCheck content hasSnap installedSnaps).2.applySelection
            selectedItems).toInstall ↔
          r ∈ (snapCheck content hasSnap installedSnaps).2.toInstall ∧
            selectedItems r.name = true) ∧
      (((snapCheck content hasSnap installedSnaps).2.applySelection selectedItems).toInstall
          = [] →
        snapExecute ((snapCheck content hasSnap installedSnaps).2.applySelection selectedItems)
          pm hasSystemctl = [])) ∧
    (∀ (auth base : String) (sel fsE : String → Bool) (ok : GitHubRepo → Bool)
        (repos : List GitHubRepo),
      githubCloneLoop auth sel base fsE ok repos =
        githubCloneLoop auth (fun _ => true) base fsE ok
          (repos.filter (fun r => sel r.full_name)) ∧
      (repos.filter (fun r => sel r.full_name) = [] →
        githubCloneLoop auth sel base fsE ok repos = ([], []))) := by
  constructor
  · intro content hasSnap installedSnaps selectedItems pm hasSystemctl
    constructor
    · intro r
      simp [SnapState.applySelection, List.mem_filter]
    · intro hempty
      simp [snapExecute, hempty]
  · intro auth base sel fsE ok repos
    refine ⟨githubCloneLoop_filter auth base sel fsE ok repos, fun hempty => ?_⟩
    rw [githubCloneLoop_filter auth base sel fsE ok repos, hempty]
    rfl

/-- C7 witness: with a selection disjoint from the plan, the snap task
retains nothing and executes nothing, and the clone loop issues nothing. -/
theorem c7_witness :
    (((snapCheck "a\nb" true (fun _ => false)).2.applySelection (fun _ => false)).toInstall
        = []) ∧
    snapExecute ((snapCheck "a\nb" true (fun _ => false)).2.applySelection (fun _ => false))
        "apt" true = [] ∧
    githubCloneLoop "tok" (fun _ => false) "base" (fun _ => false) (fun _ => true)
        [⟨"o/r", "u"⟩] = ([], []) :=
  ⟨by decide,
    (c7_selection_intersection.1 "a\nb" true (fun _ => false) (fun _ => false) "apt" true).2
      (by decide),
    (c7_selection_intersection.2 "tok" "base" (fun _ => false) (fun _ => false)
      (fun _ => true) [⟨"o/r", "u"⟩]).2 (by decide)⟩

/-- The result-pushing loop of `runAnimatedInstallation`, as a fold from
an arbitrary accumulator, appends one `stepResult` per step in order. -/
theorem runFold_eq_map (l : List (String × Except String Unit)) :
    ∀ acc : List StepResult,
      l.foldl
        (fun results step =>
          match step.2 with
          | Except.ok _ => results ++ [⟨step.1, "completed", none⟩]
          | Except.error e => results ++ [⟨step.1, "failed", some e⟩])
        acc = acc ++ l.map stepResult := by
  induction l with
  | nil => intro acc; simp
  | cons s rest ih =>
    intro acc
    obtain ⟨name, out⟩ := s
    cases out <;> simp [List.foldl_cons, ih, stepResult]

/-- Unfolding lemma: `runAnimatedInstallation` maps each step to the result
its try/catch records. -/
theorem runAnimatedInstallation_eq_map (steps : List (String × Except String Unit)) :
    runAnimatedInstallation steps = steps.map stepResult := by
  cases steps with
  | nil => rfl
  | cons s rest =>
    obtain ⟨nm, out⟩ := s
    cases out <;> simp [runAnimatedInstallation, runFold_eq_map, stepResult]

/-- C8: the execute phase produces exactly one result per selected task,
in execution order; a step whose `run` throws is recorded as `failed`
with its error message, and the following steps still produce their own
results. -/
theorem c8_one_result_per_step (steps : List (String × Except String Unit)) :
    (runAnimatedInstallation steps).length = steps.length ∧
    (∀ i : Nat, (runAnimatedInstallation steps).get? i = (steps.get? i).map stepResult) ∧
    (∀ (i : Nat) (name e : String),
      steps.get? i = some (name, Except.error e) →
      (runAnimatedInstallation steps).get? i = some ⟨name, "failed", some e⟩) := by
  refine ⟨?_, ?_, ?_⟩
  · rw [runAnimatedInstallation_eq_map, List.length_map]
  · intro i
    rw [runAnimatedInstallation_eq_map, List.get?_map]
  · intro i name e h
    rw [runAnimatedInstallation_eq_map, List.get?_map, h]
    rfl

/-- C8 witness: three steps where the middle one throws — three results,
the middle recorded failed with its message, the third still present. -/
theorem c8_witness :
    (([("a", Except.ok ()), ("b", Except.error "boom"), ("c", Except.ok ())] :
        List (String × Except String Unit)).get? 1 = some ("b", Except.error "boom")) ∧
    (runAnimatedInstallation
        [("a", Except.ok ()), ("b", Except.error "boom"), ("c", Except.ok ())]).length = 3 ∧
    (runAnimatedInstallation
        [("a", Except.ok ()), ("b", Except.error "boom"), ("c", Except.ok ())]).get? 1 =
      some ⟨"b", "failed", some "boom"⟩ := by
  refine ⟨rfl, ?_, ?_⟩
  · rw [(c8_one_result_per_step
      [("a", Except.ok ()), ("b", Except.error "boom"), ("c", Except.ok ())]).1]
    rfl
  · exact (c8_one_result_per_step
      [("a", Except.ok ()), ("b", Except.error "boom"), ("c", Except.ok ())]).2.2 1 "b" "boom" rfl

/-- C9: a task whose `check` throws is caught at the orchestrator: it
contributes no selectable category, no pending flag and no warning, the
other tasks' checks are aggregated exactly as if the failing task were
absent, and the execution step list still holds every selected task. -/
theorem c9_precheck_failure_isolated :
    ∀ (l1 l2 : List (String × Except String TaskCheckResult)) (name msg : String),
      preCheck (l1 ++ (name, Except.error msg) :: l2) = preCheck (l1 ++ l2) ∧
      (l1 ++ (name, Except.error msg) :: l2).map Prod.fst =
        l1.map Prod.fst ++ name :: l2.map Prod.fst := by
  intro l1 l2 name msg
  constructor
  · simp [preCheck, List.foldl_append, List.foldl_cons, preCheckStep]
  · simp

end Dotfiles

example : Dotfiles.sysParsePackages "git # editor" = ["git # editor"] := by decide
example : Dotfiles.getSnapRequests "git # editor" = [⟨"git", []⟩] := by decide
example : Dotfiles.sysParsePackages "a\n\n# c\n b " = ["a", "b"] := by decide
example : Dotfiles.getSnapRequests "code --classic # ide\n#x\n\nfirefox" =
    [⟨"code", ["--classic"]⟩, ⟨"firefox", []⟩] := by decide
example : Dotfiles.joinPath "base" "o/r" = "base/o/r" := by decide
example : Dotfiles.joinPath "base/" "/o/r/" = "base/o/r" := by decide
example : Dotfiles.dirnamePath "base/o/r" = "base/o" := by decide
example : Dotfiles.dirnamePath "/a" = "." := by decide
example : Dotfiles.dirnamePath "a" = "." := by decide
example : Dotfiles.snapCheck "a\nb" true (fun s => s == "a") =
    (⟨["a"], ["b"], []⟩, ⟨[⟨"b", []⟩], false⟩) := by decide
example : Dotfiles.fetchAllRepos (fun _ => some []) 1 = some ([(1, 100)], []) := by decide
